import Mathlib

/-!
Shallow embedding of the resumable batch state manager of the
`wikipedia_network` repository (package `src/data_collection`):

* `batch_file_manager.py` — `BatchFileManager` (the BatchCoordinator):
  batch-number derivation from a previous batch folder name and data-root
  resolution from an explicit data path.
* `batch_chunk.py` — `BatchChunk` (a ResultSegment): capped result file
  with timing and a finished flag.
* `record_index.py` — `RecordIndex` (a Ledger): a durable set of string
  keys mirrored in memory and persisted to a line-oriented text file.
* `article.py` — `Article` / `ArticleType`: the record serialized to one
  JSON line of a result segment.

Strings are modelled as `List Char` (Python `str`), file contents as the
exact character sequence written, and the filesystem effects of each
operation as explicit fields (`fileContent`, `backups`) of the state.
Python `set` objects are modelled as duplicate-free lists in insertion
order; all set-level statements are made about their `toFinset`.
Timestamps (`datetime.now()`) are modelled as integers supplied by the
caller.  Fallible operations return `Except`/`Option`; a Python attribute
access on a never-assigned dataclass field (an `AttributeError`) is
modelled by `Option` with `none` for the unassigned state.
-/

/-- The character sequence of a Python string. -/
abbrev PyStr := List Char

/-- The line-break characters of Python `str.splitlines`: LF, CR, VT,
FF, FS, GS, RS, NEL, LS and PS (CRLF is handled as one break by the
splitter below). -/
def pyLineBreak (c : Char) : Bool :=
  c = '\n' || c = '\r' || c = '\x0b' || c = '\x0c' ||
    c = '\x1c' || c = '\x1d' || c = '\x1e' || c = '\x85' ||
    c = '\u2028' || c = '\u2029'

/-- Model of Python `str.splitlines`: accumulator-based splitter over
all Python line-break characters, consuming a CR-LF pair as a single
break.  `acc` holds the current line reversed; `afterCR` records that
the previous character was a CR whose line was already emitted, so an
immediately following LF is part of the same break. -/
def splitlinesAux : List Char → List Char → Bool → List (List Char)
  | [], acc, _ => if acc = [] then [] else [acc.reverse]
  | c :: rest, acc, afterCR =>
    if afterCR && c = '\n' then splitlinesAux rest [] false
    else if c = '\r' then acc.reverse :: splitlinesAux rest [] true
    else if pyLineBreak c then acc.reverse :: splitlinesAux rest [] false
    else splitlinesAux rest (c :: acc) false

/-- Python `content.splitlines()`: one entry per line, line breaks
removed, no entry for the position after a trailing line break. -/
def pySplitlines (content : PyStr) : List PyStr :=
  splitlinesAux content [] false

/-- The lines of an LF-terminated file in the LF-only reading of the
spec's ledger file format (`UTF-8 text, LF-terminated, one opaque key
per line`): used to state what lines a *written* file consists of. -/
def lfLinesAux : List Char → List Char → List (List Char)
  | [], acc => if acc = [] then [] else [acc.reverse]
  | c :: rest, acc =>
    if c = '\n' then acc.reverse :: lfLinesAux rest []
    else lfLinesAux rest (c :: acc)

/-- The LF-separated lines of a file content, no entry after a trailing
LF. -/
def lfLines (content : PyStr) : List PyStr :=
  lfLinesAux content []

/-- The file content consisting of the given lines, each terminated by a
newline — exactly what repeated `file.write(key + "\n")` produces. -/
def joinLines (ks : List PyStr) : PyStr :=
  (ks.map (fun k => k ++ ['\n'])).flatten

/-- Python `int` of a decimal digit string (the value of the regex group
`(\d+)`). -/
def digitsVal (ds : PyStr) : Nat :=
  ds.foldl (fun n c => n * 10 + (c.toNat - 48)) 0

/-- Python `path.split("/")[-1]`: the part of the path after its last
slash. -/
def lastPathSegment (path : PyStr) : PyStr :=
  (path.reverse.takeWhile (fun c => c ≠ '/')).reverse

/-- Python `set.add` on a set modelled as a duplicate-free list in
insertion order: a no-op when the element is already present. -/
def pySetAdd (s : List PyStr) (k : PyStr) : List PyStr :=
  if k ∈ s then s else s ++ [k]

/-- Python `set.update` with the iterated elements listed in iteration
order. -/
def pySetUpdate (s : List PyStr) (ks : List PyStr) : List PyStr :=
  ks.foldl pySetAdd s

/-! ## `BatchFileManager` (batch_file_manager.py) -/

/-- Python `$` (without `re.MULTILINE`) matches at the end of the
string and also just before a newline at the very end of the string:
the effective text a `...$` pattern must end in. -/
def stripFinalNewline (s : PyStr) : PyStr :=
  if s.getLast? = some '\n' then s.dropLast else s

/-- The anchored part of `re.search(r"_batch_(\d+)$", segment)` followed
by `int(match.group(1))`, applied to the effective text (the segment
with a final newline already stripped): the trailing run of digits,
provided it is nonempty and immediately preceded by `_batch_`.  `\d` is
modelled on ASCII text as `Char.isDigit`; Python's `\d` additionally
matches non-ASCII Unicode decimal digits, so theorems about a failing
search are stated for ASCII inputs only. -/
def searchBatchNumberCore (seg : PyStr) : Option Nat :=
  let ds := (seg.reverse.takeWhile Char.isDigit).reverse
  let pre := (seg.reverse.dropWhile Char.isDigit).reverse
  if ds = [] then none
  else if "_batch_".data <:+ pre then some (digitsVal ds)
  else none

/-- `re.search(r"_batch_(\d+)$", segment)` followed by
`int(match.group(1))`, including `$`'s match just before a string-final
newline.  Embeds the core of
`BatchFileManager._set_up_from_previous_batch_folder`
(batch_file_manager.py lines 114–118). -/
def searchBatchNumber (seg : PyStr) : Option Nat :=
  searchBatchNumberCore (stripFinalNewline seg)

/-- `BatchFileManager._set_up_from_previous_batch_folder`
(batch_file_manager.py lines 112–131), restricted to the batch-number
derivation: on a match the new batch number is the matched value plus
one; otherwise the constructor raises
`ValueError("Invalid previous batch folder name.")` (the spec's
`ConfigurationError`). -/
def setUpFromPreviousBatchFolder (previousBatchFolder : PyStr) :
    Except PyStr Nat :=
  match searchBatchNumber (lastPathSegment previousBatchFolder) with
  | some d => .ok (d + 1)
  | none => .error "Invalid previous batch folder name.".data

/-- Declarative reading of the pattern `*_batch_<d>` on a folder-name
segment: the segment decomposes as some prefix, then the literal
`_batch_`, then the nonempty digit string whose value is `d`. -/
def MatchesBatchSuffix (seg : PyStr) (d : Nat) : Prop :=
  ∃ pre ds, seg = pre ++ "_batch_".data ++ ds ∧ ds ≠ [] ∧
    (∀ c ∈ ds, c.isDigit) ∧ digitsVal ds = d

/-- `BatchFileManager.set_up_from_data_path_or_nothing`
(batch_file_manager.py line 139), restricted to the case where a data
path is given: `data_path if data_path.endswith("/data") else
f"{data_path}/data"`. -/
def setUpDataFolderFromPath (dataPath : PyStr) : PyStr :=
  if "/data".data <:+ dataPath then dataPath else dataPath ++ "/data".data

/-! ## `BatchChunk` (batch_chunk.py) -/

/-- `BatchChunk.MAX_LINES_RESULTS_FILE` (batch_chunk.py line 34). -/
def MAX_LINES_RESULTS_FILE : Nat := 100000

/-- State of a `BatchChunk` dataclass instance together with the content
of its results file. -/
structure BatchChunk where
  batchNumber : Nat
  chunkNumber : Nat
  resultsFile : PyStr
  numberOfLines : Nat
  timeStart : Option Int
  timeEnd : Option Int
  timeElapsed : Option Int
  isFinished : Bool
  fileContent : PyStr
deriving Repr, DecidableEq

/-- `BatchChunk.__post_init__` (batch_chunk.py lines 36–47): fresh chunk
with an empty results file named
`batch_<batchNumber>_scraping_results_<chunkNumber>.jsonl`. -/
def initBatchChunk (batchNumber chunkNumber : Nat) : BatchChunk :=
  { batchNumber := batchNumber
    chunkNumber := chunkNumber
    resultsFile := "batch_".data ++ Nat.toDigits 10 batchNumber ++
      "_scraping_results_".data ++ Nat.toDigits 10 chunkNumber ++ ".jsonl".data
    numberOfLines := 0
    timeStart := none
    timeEnd := none
    timeElapsed := none
    isFinished := false
    fileContent := [] }

/-- `BatchChunk.write_line_to_results_file` (batch_chunk.py lines
49–56): refuses once `number_of_lines` has reached the cap, otherwise
appends `line + "\n"` and counts it. -/
def writeLineToResultsFile (line : PyStr) (st : BatchChunk) :
    BatchChunk × Bool :=
  if st.numberOfLines ≥ MAX_LINES_RESULTS_FILE then (st, false)
  else ({ st with
            fileContent := st.fileContent ++ line ++ ['\n']
            numberOfLines := st.numberOfLines + 1 }, true)

/-- `BatchChunk.finish_chunk` (batch_chunk.py lines 58–71); `now` is the
value of `datetime.now()`. -/
def finishChunk (now : Int) (st : BatchChunk) : BatchChunk × Bool :=
  if st.isFinished then (st, false)
  else match st.timeStart with
    | none => (st, false)
    | some t =>
      ({ st with
          timeEnd := some now
          isFinished := true
          timeElapsed := some (now - t) }, true)

/-- An operation the orchestrator can perform on a chunk: a write, a
finish, or the external assignment of `time_start` (a plain attribute
assignment in the Python callers). -/
inductive ChunkOp where
  | write (line : PyStr)
  | finish (now : Int)
  | setStart (t : Option Int)
deriving Repr

/-- Apply one chunk operation, keeping only the state. -/
def applyChunkOp (st : BatchChunk) : ChunkOp → BatchChunk
  | .write line => (writeLineToResultsFile line st).1
  | .finish now => (finishChunk now st).1
  | .setStart t => { st with timeStart := t }

/-- Run a sequence of chunk operations. -/
def runChunkOps (ops : List ChunkOp) (st : BatchChunk) : BatchChunk :=
  ops.foldl applyChunkOp st

/-- Run a sequence of writes (the per-call line contents). -/
def runWrites (lines : List PyStr) (st : BatchChunk) : BatchChunk :=
  lines.foldl (fun s line => (writeLineToResultsFile line s).1) st

/-! ## `RecordIndex` (record_index.py) -/

/-- State of a `RecordIndex` dataclass instance together with the
content of its live file and the backup files it has produced.
`records` models the Python `set` as a duplicate-free list in insertion
order; `backups` pairs each backup file name with its content. -/
structure RecordIndex where
  fileName : PyStr
  records : List PyStr
  numberOfFiles : Nat
  isBatchFinished : Bool
  fileContent : PyStr
  backups : List (PyStr × PyStr)
deriving Repr, DecidableEq

/-- `RecordIndex._load_record_index_from_file` (record_index.py lines
59–63): `set(file.read().splitlines())`, the set keeping the first
occurrence of each line. -/
def loadRecordIndexFromFile (content : PyStr) : List PyStr :=
  (pySplitlines content).dedup

/-- `RecordIndex.__post_init__` together with
`_initialise_from_previous_batch` (record_index.py lines 31–57):
`prevContent` is the content of the same-named file in the previous
batch folder when that folder was given and the file exists (the copied
bytes), and `none` otherwise (a fresh empty file is created).  The
resulting file is then parsed into the in-memory set. -/
def initRecordIndex (fileName : PyStr) (prevContent : Option PyStr) :
    RecordIndex :=
  let content := prevContent.getD []
  { fileName := fileName
    records := loadRecordIndexFromFile content
    numberOfFiles := 1
    isBatchFinished := false
    fileContent := content
    backups := [] }

/-- `RecordIndex._save_specified_records_to_file` (record_index.py lines
81–86): append each article followed by a newline to the live file;
`articles` lists the iterated set in iteration order. -/
def saveSpecifiedRecordsToFile (articles : List PyStr)
    (st : RecordIndex) : RecordIndex :=
  { st with fileContent := st.fileContent ++ joinLines articles }

/-- `RecordIndex.add_record` (record_index.py lines 66–71). -/
def addRecord (recordToAdd : PyStr) (writeToFile : Bool)
    (st : RecordIndex) : RecordIndex :=
  let st := { st with records := pySetAdd st.records recordToAdd }
  if writeToFile then saveSpecifiedRecordsToFile [recordToAdd] st else st

/-- `RecordIndex.add_multiple_records` (record_index.py lines 73–78);
`recordsToAdd` lists the passed set in its iteration order. -/
def addMultipleRecords (recordsToAdd : List PyStr) (writeToFile : Bool)
    (st : RecordIndex) : RecordIndex :=
  let st := { st with records := pySetUpdate st.records recordsToAdd }
  if writeToFile then saveSpecifiedRecordsToFile recordsToAdd st else st

/-- The backup name built in `_save_all_records_to_file`
(record_index.py line 95):
`file_name.split(".", maxsplit=1)[0] + f"_{n}.txt"`. -/
def backupFileName (fileName : PyStr) (n : Nat) : PyStr :=
  fileName.takeWhile (fun c => c ≠ '.') ++ '_' :: Nat.toDigits 10 n ++
    ".txt".data

/-- `RecordIndex._save_all_records_to_file` (record_index.py lines
88–104): bump the file counter, move the live file to the backup name,
then write every in-memory record to a fresh live file, one per line, in
set-iteration order. -/
def saveAllRecordsToFile (st : RecordIndex) : RecordIndex :=
  let n := st.numberOfFiles + 1
  { st with
      numberOfFiles := n
      backups := st.backups ++ [(backupFileName st.fileName n, st.fileContent)]
      fileContent := joinLines st.records }

/-- `RecordIndex.finish_batch` (record_index.py lines 106–110). -/
def finishBatch (st : RecordIndex) : RecordIndex :=
  saveAllRecordsToFile { st with isBatchFinished := true }

/-- An in-memory mutation of the ledger: `add_record` or
`add_multiple_records`, each with its `write_to_file` flag (and, for
`add_multiple_records`, the set's iteration order). -/
inductive LedgerOp where
  | addOne (k : PyStr) (writeToFile : Bool)
  | addMany (ks : List PyStr) (writeToFile : Bool)
deriving Repr

/-- Apply one ledger operation. -/
def applyLedgerOp (st : RecordIndex) : LedgerOp → RecordIndex
  | .addOne k w => addRecord k w st
  | .addMany ks w => addMultipleRecords ks w st

/-- Run a sequence of ledger operations. -/
def runLedgerOps (ops : List LedgerOp) (st : RecordIndex) : RecordIndex :=
  ops.foldl applyLedgerOp st

/-- All keys inserted by a sequence of ledger operations, in order, with
multiplicity. -/
def insertedKeys (ops : List LedgerOp) : List PyStr :=
  (ops.map (fun op => match op with
    | .addOne k _ => [k]
    | .addMany ks _ => ks)).flatten

/-! ## `Article` (article.py) -/

/-- `ArticleType` enumeration (article.py lines 12–20), in declaration
order. -/
inductive ArticleType where
  | REGULAR
  | WIKIPEDIA
  | TEMPLATE
  | CATEGORY
  | PORTAL
  | TALK
deriving Repr, DecidableEq

/-- The `value` of each enum member; `none` models Python `None`. -/
def ArticleType.value : ArticleType → Option PyStr
  | .REGULAR => none
  | .WIKIPEDIA => "Wikipedia".data
  | .TEMPLATE => "Sjabloon".data
  | .CATEGORY => "Categorie".data
  | .PORTAL => "Portaal".data
  | .TALK => "Overleg sjabloon".data

/-- The Python `name` of each enum member (what `type.name` yields). -/
def ArticleType.nameStr : ArticleType → PyStr
  | .REGULAR => "REGULAR".data
  | .WIKIPEDIA => "WIKIPEDIA".data
  | .TEMPLATE => "TEMPLATE".data
  | .CATEGORY => "CATEGORY".data
  | .PORTAL => "PORTAL".data
  | .TALK => "TALK".data

/-- Iteration order of `for type in ArticleType`. -/
def articleTypeMembers : List ArticleType :=
  [.REGULAR, .WIKIPEDIA, .TEMPLATE, .CATEGORY, .PORTAL, .TALK]

/-- An `Article` dataclass instance.  `type` and `numLinks` are
`init=False` fields with no default: `none` at the outer level means the
attribute was never assigned, so reading it raises `AttributeError`.
The inner `Option` of `numLinks` is Python `None`. -/
structure Article where
  title : PyStr
  pageExists : Bool
  links : Option (List PyStr)
  articleType : Option ArticleType
  numLinks : Option (Option Nat)
deriving Repr, DecidableEq

/-- The generator expression in `Article.__post_init__` (article.py
lines 40–43): the first enum member whose value is truthy and a
substring of the title, defaulting to `REGULAR`. -/
def computeArticleType (title : PyStr) : ArticleType :=
  (articleTypeMembers.find? (fun t =>
    match t.value with
    | some v => decide (v <:+: title)
    | none => false)).getD .REGULAR

/-- `Article.__init__` followed by `__post_init__` (article.py lines
31–44): `type` and `num_links` are assigned only when `exists` is true;
`num_links` is `len(links)` when `links` is truthy (a nonempty list) and
`None` otherwise. -/
def mkArticle (title : PyStr) (pageExists : Bool)
    (links : Option (List PyStr)) : Article :=
  if pageExists then
    { title := title
      pageExists := pageExists
      links := links
      articleType := some (computeArticleType title)
      numLinks := some (match links with
        | some ls => if ls = [] then none else some ls.length
        | none => none) }
  else
    { title := title
      pageExists := pageExists
      links := links
      articleType := none
      numLinks := none }

/-- A JSON value as produced by `json.dumps` for the fields of
`Article.to_json`. -/
inductive JVal where
  | jstr (s : PyStr)
  | jbool (b : Bool)
  | jnull
  | jnum (n : Nat)
  | jlist (ls : List PyStr)
deriving Repr, DecidableEq

/-- `Article.to_json` (article.py lines 60–70), as the ordered field
list of the emitted JSON object.  The dict literal reads `self.type` and
`self.num_links`; when either was never assigned (`exists` false) the
read raises `AttributeError`, modelled as `none`. -/
def Article.toJson (a : Article) : Option (List (PyStr × JVal)) :=
  match a.articleType, a.numLinks with
  | some t, some nl =>
    some [("title".data, .jstr a.title),
          ("exists".data, .jbool a.pageExists),
          ("type".data, .jstr t.nameStr),
          ("num_links".data, match nl with
            | some n => .jnum n
            | none => .jnull),
          ("links".data, match a.links with
            | some ls => .jlist ls
            | none => .jnull)]
  | _, _ => none

/-! ## Helper lemmas -/

theorem takeWhile_append_of_all {α : Type} (p : α → Bool) (l r : List α)
    (h : ∀ x ∈ l, p x) : (l ++ r).takeWhile p = l ++ r.takeWhile p := by
  induction l with
  | nil => simp
  | cons a l ih =>
    have ha : p a := h a (by simp)
    simp only [List.cons_append, List.takeWhile_cons, ha, if_true]
    rw [ih (fun x hx => h x (by simp [hx]))]

theorem dropWhile_append_of_all {α : Type} (p : α → Bool) (l r : List α)
    (h : ∀ x ∈ l, p x) : (l ++ r).dropWhile p = r.dropWhile p := by
  induction l with
  | nil => simp
  | cons a l ih =>
    have ha : p a := h a (by simp)
    simp only [List.cons_append, List.dropWhile_cons, ha, if_true]
    exact ih (fun x hx => h x (by simp [hx]))

theorem lfLinesAux_line (k t acc : List Char) (hk : '\n' ∉ k) :
    lfLinesAux (k ++ '\n' :: t) acc =
      (acc.reverse ++ k) :: lfLinesAux t [] := by
  induction k generalizing acc with
  | nil => simp [lfLinesAux]
  | cons c k ih =>
    have hc : ¬(c = '\n') := fun h => hk (h ▸ List.mem_cons_self c k)
    show lfLinesAux (c :: (k ++ '\n' :: t)) acc = _
    simp only [lfLinesAux, hc, if_false]
    rw [ih (c :: acc) (fun h => hk (List.mem_cons_of_mem c h))]
    simp

theorem lfLines_joinLines (ks : List PyStr) (h : ∀ k ∈ ks, '\n' ∉ k) :
    lfLines (joinLines ks) = ks := by
  induction ks with
  | nil => rfl
  | cons k ks ih =>
    have hk : '\n' ∉ k := h k (by simp)
    have hstep : joinLines (k :: ks) = k ++ '\n' :: joinLines ks := by
      simp [joinLines]
    show lfLinesAux (joinLines (k :: ks)) [] = k :: ks
    rw [hstep, lfLinesAux_line k (joinLines ks) [] hk]
    simp only [List.reverse_nil, List.nil_append]
    rw [show lfLinesAux (joinLines ks) [] = lfLines (joinLines ks) from rfl,
      ih (fun x hx => h x (by simp [hx]))]

theorem splitlinesAux_line (k t acc : List Char)
    (hk : ∀ c ∈ k, pyLineBreak c = false) :
    splitlinesAux (k ++ '\n' :: t) acc false =
      (acc.reverse ++ k) :: splitlinesAux t [] false := by
  induction k generalizing acc with
  | nil =>
    show splitlinesAux ('\n' :: t) acc false = _
    have h1 : ¬(('\n' : Char) = '\r') := by decide
    have h2 : pyLineBreak '\n' = true := by decide
    simp only [splitlinesAux, Bool.false_and, Bool.false_eq_true, if_false,
      h1, h2, if_true]
    simp
  | cons c k ih =>
    have hc : pyLineBreak c = false := hk c (List.mem_cons_self c k)
    have hcr : ¬(c = '\r') := by
      intro h
      rw [h] at hc
      exact absurd hc (by decide)
    show splitlinesAux (c :: (k ++ '\n' :: t)) acc false = _
    simp only [splitlinesAux, Bool.false_and, Bool.false_eq_true, if_false,
      hcr, hc]
    rw [ih (c :: acc) (fun x hx => hk x (List.mem_cons_of_mem c hx))]
    simp

theorem pySplitlines_joinLines (ks : List PyStr)
    (h : ∀ k ∈ ks, ∀ c ∈ k, pyLineBreak c = false) :
    pySplitlines (joinLines ks) = ks := by
  induction ks with
  | nil => rfl
  | cons k ks ih =>
    have hk : ∀ c ∈ k, pyLineBreak c = false := h k (by simp)
    have hstep : joinLines (k :: ks) = k ++ '\n' :: joinLines ks := by
      simp [joinLines]
    show splitlinesAux (joinLines (k :: ks)) [] false = k :: ks
    rw [hstep, splitlinesAux_line k (joinLines ks) [] hk]
    simp only [List.reverse_nil, List.nil_append]
    rw [show splitlinesAux (joinLines ks) [] false =
          pySplitlines (joinLines ks)
        from rfl,
      ih (fun x hx => h x (by simp [hx]))]

/-- Fidelity at a CR-separated input: the model agrees with Python's
`set("a\rb\n".splitlines())`, which yields two lines. -/
theorem pySplitlines_carriage_return :
    pySplitlines "a\rb\n".data = ["a".data, "b".data] := by decide

theorem pySetAdd_toFinset (s : List PyStr) (k : PyStr) :
    (pySetAdd s k).toFinset = insert k s.toFinset := by
  by_cases hk : k ∈ s
  · ext x
    simp only [pySetAdd, hk, if_true, List.mem_toFinset, Finset.mem_insert]
    constructor
    · exact fun h => Or.inr h
    · rintro (rfl | h)
      · exact hk
      · exact h
  · ext x
    simp [pySetAdd, hk, or_comm]

theorem pySetUpdate_toFinset (s : List PyStr) (ks : List PyStr) :
    (pySetUpdate s ks).toFinset = s.toFinset ∪ ks.toFinset := by
  induction ks generalizing s with
  | nil => simp [pySetUpdate]
  | cons k ks ih =>
    show (pySetUpdate (pySetAdd s k) ks).toFinset = _
    rw [ih, pySetAdd_toFinset]
    ext x
    simp [or_assoc]

theorem addRecord_records (k : PyStr) (w : Bool) (st : RecordIndex) :
    (addRecord k w st).records = pySetAdd st.records k := by
  cases w <;> rfl

theorem addMultipleRecords_records (ks : List PyStr) (w : Bool)
    (st : RecordIndex) :
    (addMultipleRecords ks w st).records = pySetUpdate st.records ks := by
  cases w <;> rfl

theorem insertedKeys_cons (op : LedgerOp) (ops : List LedgerOp) :
    insertedKeys (op :: ops) =
      (match op with
        | .addOne k _ => [k]
        | .addMany ks _ => ks) ++ insertedKeys ops := by
  simp [insertedKeys]

theorem runLedgerOps_records_toFinset (ops : List LedgerOp)
    (st : RecordIndex) :
    (runLedgerOps ops st).records.toFinset =
      st.records.toFinset ∪ (insertedKeys ops).toFinset := by
  induction ops generalizing st with
  | nil => simp [runLedgerOps, insertedKeys]
  | cons op ops ih =>
    show (runLedgerOps ops (applyLedgerOp st op)).records.toFinset = _
    rw [ih, insertedKeys_cons]
    cases op with
    | addOne k w =>
      simp only [applyLedgerOp, addRecord_records, pySetAdd_toFinset,
        List.toFinset_append]
      ext x
      simp
      tauto
    | addMany ks w =>
      simp only [applyLedgerOp, addMultipleRecords_records,
        pySetUpdate_toFinset, List.toFinset_append]
      ext x
      simp [or_assoc]

/-- The anchored matcher succeeds with value `d` exactly when its
effective text matches the declarative pattern `*_batch_<d>`. -/
theorem searchBatchNumberCore_eq_some_iff (seg : PyStr) (d : Nat) :
    searchBatchNumberCore seg = some d ↔ MatchesBatchSuffix seg d := by
  constructor
  · intro h
    unfold searchBatchNumberCore at h
    by_cases h1 : (seg.reverse.takeWhile Char.isDigit).reverse = []
    · simp [h1] at h
    · by_cases h2 :
        "_batch_".data <:+ (seg.reverse.dropWhile Char.isDigit).reverse
      · simp only [h1, h2, if_false, if_true] at h
        obtain ⟨u, hu⟩ := h2
        have hsplit :
            (seg.reverse.dropWhile Char.isDigit).reverse ++
              (seg.reverse.takeWhile Char.isDigit).reverse = seg := by
          rw [← List.reverse_append, List.takeWhile_append_dropWhile,
            List.reverse_reverse]
        have hseg2 : u ++ "_batch_".data ++
            (seg.reverse.takeWhile Char.isDigit).reverse = seg := by
          rw [hu]
          exact hsplit
        refine ⟨u, (seg.reverse.takeWhile Char.isDigit).reverse,
          hseg2.symm, h1, ?_, Option.some.inj h⟩
        intro c hc
        exact List.mem_takeWhile_imp (List.mem_reverse.mp hc)
      · simp [h1, h2] at h
  · rintro ⟨pre0, ds0, hseg, hne, hdig, hval⟩
    have hnd : Char.isDigit '_' = false := by decide
    have hrev : seg.reverse =
        ds0.reverse ++ ('_' :: ("hctab_".data ++ pre0.reverse)) := by
      rw [hseg]
      simp [List.reverse_append]
    have hall : ∀ x ∈ ds0.reverse, Char.isDigit x := fun x hx =>
      hdig x (List.mem_reverse.mp hx)
    have htake : seg.reverse.takeWhile Char.isDigit = ds0.reverse := by
      rw [hrev, takeWhile_append_of_all _ _ _ hall]
      simp [List.takeWhile_cons, hnd]
    have hdrop : seg.reverse.dropWhile Char.isDigit =
        '_' :: ("hctab_".data ++ pre0.reverse) := by
      rw [hrev, dropWhile_append_of_all _ _ _ hall]
      simp [List.dropWhile_cons, hnd]
    have hpre : (seg.reverse.dropWhile Char.isDigit).reverse =
        pre0 ++ "_batch_".data := by
      rw [hdrop]
      simp [List.reverse_append]
    unfold searchBatchNumberCore
    rw [htake, hpre, List.reverse_reverse]
    simp [hne, List.suffix_append, hval]

/-- The embedded `re.search(r"_batch_(\d+)$", seg)` succeeds with value
`d` exactly when the segment, with a single final newline removed if
present (Python `$` semantics), matches the declarative pattern
`*_batch_<d>`. -/
theorem searchBatchNumber_eq_some_iff (seg : PyStr) (d : Nat) :
    searchBatchNumber seg = some d ↔
      MatchesBatchSuffix (stripFinalNewline seg) d :=
  searchBatchNumberCore_eq_some_iff (stripFinalNewline seg) d

/-- The anchored matcher fails exactly when its effective text matches
`*_batch_<d>` for no `d`. -/
theorem searchBatchNumberCore_eq_none_iff (seg : PyStr) :
    searchBatchNumberCore seg = none ↔
      ∀ d, ¬ MatchesBatchSuffix seg d := by
  constructor
  · intro h d hm
    rw [(searchBatchNumberCore_eq_some_iff seg d).mpr hm] at h
    exact Option.noConfusion h
  · intro h
    cases hs : searchBatchNumberCore seg with
    | none => rfl
    | some d =>
      exact absurd ((searchBatchNumberCore_eq_some_iff seg d).mp hs) (h d)

theorem writeLine_count (line : PyStr) (st : BatchChunk) :
    (writeLineToResultsFile line st).1.numberOfLines =
      if st.numberOfLines ≥ MAX_LINES_RESULTS_FILE then st.numberOfLines
      else st.numberOfLines + 1 := by
  unfold writeLineToResultsFile
  split <;> rfl

theorem runWrites_numberOfLines (lines : List PyStr) (st : BatchChunk)
    (h : st.numberOfLines ≤ MAX_LINES_RESULTS_FILE) :
    (runWrites lines st).numberOfLines =
      min (st.numberOfLines + lines.length) MAX_LINES_RESULTS_FILE := by
  induction lines generalizing st with
  | nil => simp [runWrites]; omega
  | cons l lines ih =>
    show (runWrites lines (writeLineToResultsFile l st).1).numberOfLines = _
    rw [ih _ (by rw [writeLine_count]; split <;> omega)]
    rw [writeLine_count]
    split <;> simp [List.length_cons] <;> omega

theorem applyChunkOp_isFinished (st : BatchChunk) (op : ChunkOp)
    (h : st.isFinished = true) : (applyChunkOp st op).isFinished = true := by
  cases op with
  | write line =>
    show (writeLineToResultsFile line st).1.isFinished = true
    unfold writeLineToResultsFile
    split
    · exact h
    · exact h
  | finish now =>
    show (finishChunk now st).1.isFinished = true
    unfold finishChunk
    simp [h]
  | setStart t => exact h

theorem runChunkOps_isFinished_mono (ops : List ChunkOp) (st : BatchChunk)
    (h : st.isFinished = true) : (runChunkOps ops st).isFinished = true := by
  induction ops generalizing st with
  | nil => exact h
  | cons op ops ih => exact ih _ (applyChunkOp_isFinished st op h)

/-- Counterexample to C1 as stated: Python `$` also matches just before
a string-final newline, so for the path `data/staging/20240101_batch_3`
followed by a newline the code succeeds and derives batch number 4,
even though the trailing path segment itself matches `*_batch_<d>` for
no `d` (its last character is the newline, so no digit string is
trailing; `searchBatchNumberCore ... = none` is equivalent to
`∀ d, ¬ MatchesBatchSuffix ...` by `searchBatchNumberCore_eq_none_iff`).
The claim asserts a `ConfigurationError` for every non-matching
segment, yet here no error is raised. -/
theorem c1_trailing_newline_counterexample :
    setUpFromPreviousBatchFolder "data/staging/20240101_batch_3\n".data =
      .ok 4 ∧
    searchBatchNumberCore
      (lastPathSegment "data/staging/20240101_batch_3\n".data) = none :=
  ⟨rfl, by decide⟩

/-- C1 (amended): for every `previousBatchFolder` path whose trailing
path segment, after removing a single final newline if present (Python
`$` matches just before a string-final newline), matches `*_batch_<d>`
for some decimal digit string `d`, opening the coordinator derives the
new batch number as `d + 1`; for every ASCII path whose trailing
segment does not so match, opening fails with the configuration error
(`ValueError("Invalid previous batch folder name.")`, the spec's
`ConfigurationError`) and no batch number is derived.  The error
direction is stated for ASCII paths because Python's `\d` additionally
accepts non-ASCII Unicode decimal digits, which this embedding does not
model. -/
theorem c1_previous_batch_number :
    (∀ (path : PyStr) (d : Nat),
        MatchesBatchSuffix (stripFinalNewline (lastPathSegment path)) d →
        setUpFromPreviousBatchFolder path = .ok (d + 1)) ∧
    (∀ path : PyStr, (∀ c ∈ path, c.toNat < 128) →
        (∀ d, ¬ MatchesBatchSuffix
          (stripFinalNewline (lastPathSegment path)) d) →
        setUpFromPreviousBatchFolder path =
          .error "Invalid previous batch folder name.".data) := by
  constructor
  · intro path d hm
    unfold setUpFromPreviousBatchFolder
    rw [(searchBatchNumber_eq_some_iff _ _).mpr hm]
  · intro path _ hm
    unfold setUpFromPreviousBatchFolder
    cases hs : searchBatchNumber (lastPathSegment path) with
    | none => rfl
    | some d => exact absurd ((searchBatchNumber_eq_some_iff _ _).mp hs) (hm d)

/-- Witness for the amended C1 at the concrete paths
`data/staging/20240101_batch_3` followed by a newline (matching after
the `$` newline strip, derives 4) and `data/staging/notabatch` (ASCII,
not matching, fails). -/
theorem c1_previous_batch_number_witness :
    setUpFromPreviousBatchFolder "data/staging/20240101_batch_3\n".data =
      .ok 4 ∧
    setUpFromPreviousBatchFolder "data/staging/notabatch".data =
      .error "Invalid previous batch folder name.".data := by
  constructor
  · exact c1_previous_batch_number.1 "data/staging/20240101_batch_3\n".data 3
      ⟨"20240101".data, "3".data, by decide, by decide, by decide, by decide⟩
  · exact c1_previous_batch_number.2 "data/staging/notabatch".data
      (by decide)
      ((searchBatchNumberCore_eq_none_iff
        (stripFinalNewline
          (lastPathSegment "data/staging/notabatch".data))).mp (by decide))

/-- C2: starting from `line_count = 0`, each `writeLine` call below the
100,000-line cap returns true and increments `line_count` by exactly 1;
every call made at the cap returns false and leaves the whole state
unchanged; consequently after any sequence of `writeLine` calls the
count is `min calls 100000`, hence at most 100,000. -/
theorem c2_segment_capacity :
    (∀ (line : PyStr) (st : BatchChunk),
        st.numberOfLines < MAX_LINES_RESULTS_FILE →
        (writeLineToResultsFile line st).2 = true ∧
        (writeLineToResultsFile line st).1.numberOfLines =
          st.numberOfLines + 1) ∧
    (∀ (line : PyStr) (st : BatchChunk),
        st.numberOfLines = MAX_LINES_RESULTS_FILE →
        (writeLineToResultsFile line st).2 = false ∧
        (writeLineToResultsFile line st).1 = st) ∧
    (∀ (b c : Nat) (lines : List PyStr),
        (runWrites lines (initBatchChunk b c)).numberOfLines =
          min lines.length MAX_LINES_RESULTS_FILE ∧
        (runWrites lines (initBatchChunk b c)).numberOfLines ≤
          MAX_LINES_RESULTS_FILE) := by
  refine ⟨?_, ?_, ?_⟩
  · intro line st h
    unfold writeLineToResultsFile
    rw [if_neg (by omega)]
    exact ⟨rfl, rfl⟩
  · intro line st h
    unfold writeLineToResultsFile
    rw [if_pos (by omega)]
    exact ⟨rfl, rfl⟩
  · intro b c lines
    have h0 : (initBatchChunk b c).numberOfLines = 0 := rfl
    have hr := runWrites_numberOfLines lines (initBatchChunk b c)
      (by rw [h0]; exact Nat.zero_le _)
    rw [h0] at hr
    simp only [Nat.zero_add] at hr
    exact ⟨hr, by rw [hr]; exact Nat.min_le_right _ _⟩

/-- Witness for C2 on a fresh chunk (write succeeds, count 1) and on a
chunk at the cap (write refused, state unchanged). -/
theorem c2_segment_capacity_witness :
    (writeLineToResultsFile "r".data (initBatchChunk 1 1)).2 = true ∧
    (writeLineToResultsFile "r".data (initBatchChunk 1 1)).1.numberOfLines
      = 1 ∧
    (writeLineToResultsFile "r".data
        { initBatchChunk 1 1 with
            numberOfLines := MAX_LINES_RESULTS_FILE }).2 = false ∧
    (writeLineToResultsFile "r".data
        { initBatchChunk 1 1 with
            numberOfLines := MAX_LINES_RESULTS_FILE }).1 =
      { initBatchChunk 1 1 with
          numberOfLines := MAX_LINES_RESULTS_FILE } := by
  obtain ⟨h1, h2⟩ := c2_segment_capacity.1 "r".data (initBatchChunk 1 1)
    (by decide)
  obtain ⟨h3, h4⟩ := c2_segment_capacity.2.1 "r".data
    { initBatchChunk 1 1 with numberOfLines := MAX_LINES_RESULTS_FILE } rfl
  exact ⟨h1, h2, h3, h4⟩

/-- C3: for every ledger opened with an empty initial key set and every
finite sequence of `add_record` / `add_multiple_records` calls with any
flush flags, the in-memory key set equals the set of distinct keys
inserted, so its cardinality is independent of duplicate insertions and
of insertion order. -/
theorem c3_ledger_distinct_keys :
    ∀ (fileName : PyStr) (ops : List LedgerOp),
      (runLedgerOps ops (initRecordIndex fileName none)).records.toFinset =
        (insertedKeys ops).toFinset ∧
      (runLedgerOps ops
          (initRecordIndex fileName none)).records.toFinset.card =
        (insertedKeys ops).toFinset.card := by
  intro fileName ops
  have h := runLedgerOps_records_toFinset ops (initRecordIndex fileName none)
  have h0 : (initRecordIndex fileName none).records = [] := rfl
  rw [h0] at h
  simp only [List.toFinset_nil, Finset.empty_union] at h
  exact ⟨h, by rw [h]⟩

/-- C4: round-trip — a ledger A opened with no previous batch, keys
"x", "y", "z" added with flush, then a ledger B opened with A's folder
as previous batch (same file name, so B copies A's live file): B's
loaded in-memory key set equals exactly \x7b"x", "y", "z"\x7d. -/
theorem c4_ledger_round_trip :
    (initRecordIndex "visited_articles.txt".data
        (some ((addRecord "z".data true (addRecord "y".data true
          (addRecord "x".data true
            (initRecordIndex "visited_articles.txt".data
              none)))).fileContent))).records.toFinset =
      ({"x".data, "y".data, "z".data} : Finset PyStr) := by decide

/-- C5: `finish()` returns false and performs no mutation when the chunk
is already finished or when `start_time` was never set; when
`start_time` is set and the chunk is unfinished, it sets `end_time`,
sets `elapsed = end_time - start_time`, sets `finished := true` and
returns true; and `finished` is monotone over every operation sequence
(it never reverts from true to false). -/
theorem c5_finish_chunk :
    (∀ (now : Int) (st : BatchChunk), st.isFinished = true →
        finishChunk now st = (st, false)) ∧
    (∀ (now : Int) (st : BatchChunk), st.isFinished = false →
        st.timeStart = none → finishChunk now st = (st, false)) ∧
    (∀ (now t : Int) (st : BatchChunk), st.isFinished = false →
        st.timeStart = some t →
        finishChunk now st =
          ({ st with
              timeEnd := some now
              isFinished := true
              timeElapsed := some (now - t) }, true)) ∧
    (∀ (ops : List ChunkOp) (st : BatchChunk), st.isFinished = true →
        (runChunkOps ops st).isFinished = true) := by
  refine ⟨?_, ?_, ?_, runChunkOps_isFinished_mono⟩
  · intro now st h
    unfold finishChunk
    rw [if_pos h]
  · intro now st h1 h2
    unfold finishChunk
    rw [if_neg (by simp [h1]), h2]
  · intro now t st h1 h2
    unfold finishChunk
    rw [if_neg (by simp [h1]), h2]

/-- Witness for C5 on concrete chunks: already finished, never started,
started at 5 and finished at 9, and a write after finishing. -/
theorem c5_finish_chunk_witness :
    finishChunk 9 { initBatchChunk 1 1 with isFinished := true } =
      ({ initBatchChunk 1 1 with isFinished := true }, false) ∧
    finishChunk 9 (initBatchChunk 1 1) = (initBatchChunk 1 1, false) ∧
    finishChunk 9 { initBatchChunk 1 1 with timeStart := some 5 } =
      ({ { initBatchChunk 1 1 with timeStart := some 5 } with
          timeEnd := some 9
          isFinished := true
          timeElapsed := some (9 - 5) }, true) ∧
    (runChunkOps [.write "r".data]
        { initBatchChunk 1 1 with isFinished := true }).isFinished = true :=
  ⟨c5_finish_chunk.1 9 _ rfl,
   c5_finish_chunk.2.1 9 _ rfl rfl,
   c5_finish_chunk.2.2.1 9 5 _ rfl rfl,
   c5_finish_chunk.2.2.2 [.write "r".data] _ rfl⟩

/-- Counterexample to C6 as stated: the file content `"x\n\n"` contains
a blank line, yet the loaded in-memory key set contains the empty-string
key (`set(content.splitlines())` keeps empty lines as `""`). -/
theorem c6_blank_line_counterexample :
    ([] : PyStr) ∈
      (initRecordIndex "visited_articles.txt".data
        (some "x\n\n".data)).records := by decide

/-- C6 (amended): opening a ledger parses the file with Python
`splitlines` semantics, one key per line with the trailing line break of
each line stripped, but blank lines are *not* excluded — each blank line
contributes the empty string as a key, so for keys free of line-break
characters the loaded key set is exactly the set of written lines,
empty lines included. -/
theorem c6_load_parses_lines :
    ∀ (fileName : PyStr) (ks : List PyStr),
      (∀ k ∈ ks, ∀ c ∈ k, pyLineBreak c = false) →
      (initRecordIndex fileName (some (joinLines ks))).records.toFinset =
        ks.toFinset := by
  intro fileName ks h
  show (loadRecordIndexFromFile (joinLines ks)).toFinset = ks.toFinset
  unfold loadRecordIndexFromFile
  rw [pySplitlines_joinLines ks h]
  ext x
  simp [List.mem_dedup]

/-- Witness for the amended C6 at the two-line file `"x\n\n"` (one real
key and one blank line). -/
theorem c6_load_parses_lines_witness :
    (initRecordIndex "visited_articles.txt".data
        (some (joinLines ["x".data, []]))).records.toFinset =
      (["x".data, []] : List PyStr).toFinset :=
  c6_load_parses_lines "visited_articles.txt".data ["x".data, []] (by decide)

/-- Counterexample to C7 as stated: for a ledger whose in-memory set
contains the empty key, and for one whose key embeds a newline, the set
of non-empty lines of the rewritten live file differs from the in-memory
key set. -/
theorem c7_finalize_counterexample :
    (((lfLines (finishBatch (addRecord [] false
            (initRecordIndex "visited_articles.txt".data
              none))).fileContent).filter
        (fun l => !l.isEmpty)).toFinset ≠
      (addRecord [] false
        (initRecordIndex "visited_articles.txt".data
          none)).records.toFinset) ∧
    (((lfLines (finishBatch (addRecord "a\nb".data false
            (initRecordIndex "visited_articles.txt".data
              none))).fileContent).filter
        (fun l => !l.isEmpty)).toFinset ≠
      (addRecord "a\nb".data false
        (initRecordIndex "visited_articles.txt".data
          none)).records.toFinset) := by decide

/-- The first finalization's backup name is `<base>_2.txt`. -/
theorem backupFileName_two (fn : PyStr) :
    backupFileName fn 2 =
      fn.takeWhile (fun c => c ≠ '.') ++ "_2.txt".data := by
  unfold backupFileName
  rw [List.append_assoc]
  have h : '_' :: Nat.toDigits 10 2 ++ ".txt".data = "_2.txt".data := by
    decide
  rw [h]

/-- C7 (amended): for every ledger whose keys are nonempty and
newline-free (as the spec's LF-terminated one-key-per-line file format
requires; `lfLines` is that format's reading of the file), the first
`finalize()` call (backup counter still at its initial 1, so the bumped
counter is 2) records a backup named `<base>_2.txt` holding the old live
content, that backup name is distinct from the live file name, and the
fresh live file's set of non-empty lines equals exactly the current
in-memory key set. -/
theorem c7_finalize_first_backup :
    ∀ st : RecordIndex, st.numberOfFiles = 1 →
      (∀ k ∈ st.records, k ≠ [] ∧ '\n' ∉ k) →
      (finishBatch st).backups =
        st.backups ++ [(backupFileName st.fileName 2, st.fileContent)] ∧
      backupFileName st.fileName 2 =
        st.fileName.takeWhile (fun c => c ≠ '.') ++ "_2.txt".data ∧
      backupFileName st.fileName 2 ≠ st.fileName ∧
      ((lfLines (finishBatch st).fileContent).filter
          (fun l => !l.isEmpty)).toFinset = st.records.toFinset := by
  intro st h1 h2
  refine ⟨?_, backupFileName_two st.fileName, ?_, ?_⟩
  · show (saveAllRecordsToFile { st with isBatchFinished := true }).backups = _
    unfold saveAllRecordsToFile
    simp [h1]
  · intro heq
    rw [backupFileName_two] at heq
    have hall : ∀ x ∈ st.fileName.takeWhile (fun c : Char => decide (c ≠ '.')),
        decide (x ≠ '.') = true := fun x hx =>
      @List.mem_takeWhile_imp Char (fun c : Char => decide (c ≠ '.'))
        st.fileName x hx
    have htail : "_2.txt".data.takeWhile (fun c : Char => decide (c ≠ '.')) =
        "_2".data := by decide
    have h3 : st.fileName.takeWhile (fun c : Char => decide (c ≠ '.')) =
        st.fileName.takeWhile (fun c : Char => decide (c ≠ '.')) ++
          "_2".data := by
      conv_lhs => rw [← heq]
      rw [takeWhile_append_of_all _ _ _ hall, htail]
    have h4 := congrArg List.length h3
    simp at h4
  · have hfc : (finishBatch st).fileContent = joinLines st.records := rfl
    rw [hfc, lfLines_joinLines st.records (fun k hk => (h2 k hk).2)]
    rw [List.filter_eq_self.mpr (fun a ha => by
      simp [List.isEmpty_iff, (h2 a ha).1])]

/-- Witness for the amended C7 on a fresh `visited_articles.txt` ledger
holding the single key "x". -/
theorem c7_finalize_first_backup_witness :
    (finishBatch (addRecord "x".data false
        (initRecordIndex "visited_articles.txt".data none))).backups =
      (addRecord "x".data false
        (initRecordIndex "visited_articles.txt".data none)).backups ++
        [(backupFileName "visited_articles.txt".data 2,
          (addRecord "x".data false
            (initRecordIndex "visited_articles.txt".data
              none)).fileContent)] ∧
    backupFileName "visited_articles.txt".data 2 =
      "visited_articles.txt".data.takeWhile (fun c => c ≠ '.') ++
        "_2.txt".data ∧
    backupFileName "visited_articles.txt".data 2 ≠
      "visited_articles.txt".data ∧
    ((lfLines (finishBatch (addRecord "x".data false
          (initRecordIndex "visited_articles.txt".data
            none))).fileContent).filter
        (fun l => !l.isEmpty)).toFinset =
      (addRecord "x".data false
        (initRecordIndex "visited_articles.txt".data
          none)).records.toFinset :=
  c7_finalize_first_backup
    (addRecord "x".data false
      (initRecordIndex "visited_articles.txt".data none)) rfl (by decide)

/-- C8: serializing an article with `exists = false` does *not* yield a
JSON object without a `type` field — `__post_init__` never assigns
`type`/`num_links` when `exists` is false, so `to_json` reads an unset
attribute and raises `AttributeError` (modelled as `none`); for
`exists = true` the object carries all five fields including `type`. -/
theorem c8_tojson_nonexistent_raises :
    Article.toJson (mkArticle "Aardvark".data false none) = none ∧
    (mkArticle "Aardvark".data false none).articleType = none ∧
    (mkArticle "Aardvark".data false none).numLinks = none ∧
    Article.toJson (mkArticle "Aardvark".data true (some ["Dier".data])) =
      some [("title".data, .jstr "Aardvark".data),
            ("exists".data, .jbool true),
            ("type".data, .jstr "REGULAR".data),
            ("num_links".data, .jnum 1),
            ("links".data, .jlist ["Dier".data])] := by
  refine ⟨rfl, rfl, rfl, ?_⟩
  decide

/-- Counterexample to C9 as stated: the given data path `/project` is
altered — the coordinator uses `/project/data`, not the given path. -/
theorem c9_data_root_counterexample :
    setUpDataFolderFromPath "/project".data ≠ "/project".data := by decide

/-- C9 (amended): with `previousBatchFolder` omitted and a data path
given, the coordinator uses the given path itself only when it already
ends in `/data`; otherwise it appends `/data` to the given path.  In
both cases the used data root ends in `/data`. -/
theorem c9_data_root_amended :
    ∀ dataPath : PyStr,
      ("/data".data <:+ dataPath →
        setUpDataFolderFromPath dataPath = dataPath) ∧
      (¬ "/data".data <:+ dataPath →
        setUpDataFolderFromPath dataPath = dataPath ++ "/data".data) ∧
      "/data".data <:+ setUpDataFolderFromPath dataPath := by
  intro p
  by_cases h : "/data".data <:+ p
  · refine ⟨fun _ => ?_, fun hn => absurd h hn, ?_⟩
    · unfold setUpDataFolderFromPath
      rw [if_pos h]
    · unfold setUpDataFolderFromPath
      rw [if_pos h]
      exact h
  · refine ⟨fun hc => absurd hc h, fun _ => ?_, ?_⟩
    · unfold setUpDataFolderFromPath
      rw [if_neg h]
    · unfold setUpDataFolderFromPath
      rw [if_neg h]
      exact List.suffix_append _ _

/-- Witness for the amended C9 at `/project/data` (kept as is) and
`/project` (gets `/data` appended). -/
theorem c9_data_root_amended_witness :
    setUpDataFolderFromPath "/project/data".data = "/project/data".data ∧
    setUpDataFolderFromPath "/project".data =
      "/project".data ++ "/data".data :=
  ⟨(c9_data_root_amended "/project/data".data).1 (by decide),
   (c9_data_root_amended "/project".data).2.1 (by decide)⟩

/-- C10: finalizing a ledger leaves its in-memory state unchanged except
for the finished flag and the backup counter: the key list (hence the
key set) and the file name are unchanged, the counter increases by
exactly 1, and the finished flag is set. -/
theorem c10_finalize_frame :
    ∀ st : RecordIndex,
      (finishBatch st).records = st.records ∧
      (finishBatch st).numberOfFiles = st.numberOfFiles + 1 ∧
      (finishBatch st).fileName = st.fileName ∧
      (finishBatch st).isBatchFinished = true ∧
      (finishBatch st).records.toFinset = st.records.toFinset := by
  intro st
  exact ⟨rfl, rfl, rfl, rfl, rfl⟩
